import Mathlib

/-!
Shallow embedding of the localcert certificate-issuance core
(`src/states.rs`, `src/wire/client.rs`, `src/wire/domain.rs`,
`src/wire/provision.rs`, `src/error.rs`).

External collaborators (the `acme` crate's Account/Order/Authorization/
Challenge API and the `url` crate's URL type) are modelled at their
interface boundary: their data is carried as explicit Lean structures and
every network side effect is an explicit input (the result the external
call would return, or the sequence of statuses the authority reports on
successive polls).  Rust `panic!`/`unreachable!` is modelled as a
distinguished `Res.panic` outcome, and a status-wait that never observes a
changed status within the supplied poll sequence is `Res.suspended`.
-/

namespace Localcert

/-- ACME order status (`acme::wire::order::OrderStatus`), the five
RFC 8555 order states. -/
inductive OrderStatus where
  | pending
  | ready
  | processing
  | valid
  | invalid
deriving DecidableEq, Repr

/-- ACME authorization status (`acme::wire::authorization::AuthorizationStatus`),
the six RFC 8555 authorization states. -/
inductive AuthorizationStatus where
  | pending
  | valid
  | invalid
  | deactivated
  | expired
  | revoked
deriving DecidableEq, Repr

/-- ACME challenge status (`acme::wire::challenge`). -/
inductive ChallengeStatus where
  | pending
  | processing
  | valid
  | invalid
deriving DecidableEq, Repr

/-- The distinguished ACME problem types the client inspects
(`acme::wire::problem::AcmeProblemType`); only `badNonce` is consulted by
this crate, the others stand for the rest of the taxonomy. -/
inductive AcmeProblemType where
  | badNonce
  | badSignatureAlgorithm
  | unauthorized
  | serverInternal
deriving DecidableEq, Repr

/-- A structured ACME problem document. -/
structure AcmeProblem where
  problemType : Option AcmeProblemType
  detail : String
deriving DecidableEq, Repr

/-- `AcmeProblem::has_type` from the `acme` crate interface. -/
def AcmeProblem.has_type (p : AcmeProblem) (t : AcmeProblemType) : Bool :=
  p.problemType = some t

/-- Errors surfaced by the external `acme` crate (`acme::AcmeError`),
modelled at the boundary: a structured problem document or some other
failure (crypto, transport, ...). -/
inductive AcmeError where
  | acmeProblem (problem : AcmeProblem)
  | otherAcme (msg : String)
deriving DecidableEq, Repr

/-- `LocalcertError` from `src/error.rs`. -/
inductive LocalcertError where
  | acmeError (e : AcmeError)
  | acmeFeatureMissing (msg : String)
  | httpError (status : Nat) (msg : String)
  | invalidBaseUrl (msg : String)
  | jsonError (msg : String)
  | stateError (msg : String)
deriving DecidableEq, Repr

/-- Debug rendering of an order status, as Rust's `{:?}` would print it;
used by `LocalcertError::unexpected_status`. -/
def OrderStatus.debugStr : OrderStatus → String
  | .pending => "Pending"
  | .ready => "Ready"
  | .processing => "Processing"
  | .valid => "Valid"
  | .invalid => "Invalid"

/-- `LocalcertError::unexpected_status` from `src/error.rs`:
`StateError(format!("unexpected {} status {:?}", resource_type, status))`.
The status argument arrives already Debug-rendered. -/
def LocalcertError.unexpected_status (resourceType : String) (statusDebug : String) :
    LocalcertError :=
  .stateError ("unexpected " ++ resourceType ++ " status " ++ statusDebug)

/-- Outcome of one state-machine operation.  `ok`/`err` are the two arms of
`LocalcertResult`; `panic` is a Rust `unreachable!()` crash; `suspended`
is a status-wait that never completes within the observed poll sequence. -/
inductive Res (α : Type) where
  | ok (a : α)
  | err (e : LocalcertError)
  | panic
  | suspended
deriving DecidableEq, Repr

/-- An ACME account handle (`acme::api::account::Account`), boundary model:
identified by its account URL. -/
structure Account where
  url : String
deriving DecidableEq, Repr

/-- An ACME order handle (`acme::api::order::Order`), boundary model: its
identifying URL and its current status; the `OrderState` sub-state the
`acme` crate exposes is determined by the status. -/
structure Order where
  url : String
  status : OrderStatus
deriving DecidableEq, Repr

/-- An ACME challenge (`acme::api::challenge`), boundary model: a type tag
(only "dns-01" is used), its URL and its status. -/
structure Challenge where
  challengeType : String
  url : String
  status : ChallengeStatus
deriving DecidableEq, Repr

/-- `CHALLENGE_TYPE_DNS_01` from `acme::wire::challenge`. -/
def CHALLENGE_TYPE_DNS_01 : String := "dns-01"

/-- An ACME authorization (`acme::api::authorization::Authorization`),
boundary model: URL, status, and its challenges. -/
structure Authorization where
  url : String
  status : AuthorizationStatus
  challenges : List Challenge
deriving DecidableEq, Repr

/-- `Authorization::find_challenge_type` from the `acme` crate interface:
the first challenge whose type tag matches. -/
def Authorization.find_challenge_type (a : Authorization) (t : String) :
    Option Challenge :=
  a.challenges.find? (fun c => c.challengeType = t)

/-- `DomainResult` from `src/wire/domain.rs`: the wire result of the
domain-claim endpoint, carrying the domain assigned to the account
(field `localcert_domain`, serialized in lowerCamelCase). -/
structure DomainResult where
  localcert_domain : String
deriving DecidableEq, Repr

/-- `ProvisionResult` from `src/wire/provision.rs`. -/
structure ProvisionResult where
  authorization_url : String
  provisioned_challenge_url : String
deriving DecidableEq, Repr

/-- An authority-generated key pair (`acme::api::order::GeneratedKey`),
boundary model: opaque key material. -/
structure GeneratedKey where
  keyData : String
deriving DecidableEq, Repr

/-!
URL model.  `LocalcertClient` stores a `url::Url`; only the path of the URL
matters for the claims here, so a URL is modelled at the `url`-crate
interface boundary as its list of path segments (the serialized path is
`"/" ++` the segments joined with `"/"`; a URL that cannot be a base has no
segmented path at all).  `path_segments_mut` fails exactly on
cannot-be-a-base URLs; `pop_if_empty` drops a trailing empty segment;
`push` appends a segment; `join` with a single relative segment replaces
everything after the last `/` of the path, i.e. the last segment.
-/

/-- A parsed URL, at the `url` crate's interface boundary. -/
structure Url where
  scheme : String
  host : String
  cannotBeABase : Bool
  pathSegments : List String
deriving DecidableEq, Repr

/-- Serialization of a segment list: segments joined by `/`. -/
def renderSegments : List String → String
  | [] => ""
  | [s] => s
  | s :: rest => s ++ "/" ++ renderSegments rest

/-- The serialized path of a URL (for URLs that can be a base): `/` followed
by the segments joined with `/`. -/
def Url.path (u : Url) : String :=
  "/" ++ renderSegments u.pathSegments

/-- `PathSegmentsMut::pop_if_empty`: remove the last path segment if it is
empty. -/
def popIfEmpty (segs : List String) : List String :=
  match segs.getLast? with
  | some "" => segs.dropLast
  | _ => segs

/-- `PathSegmentsMut::push`: append one path segment. -/
def pushSegment (segs : List String) (s : String) : List String :=
  segs ++ [s]

/-- `Url::join` with a single relative path segment (no slash, no query):
per RFC 3986 merge, replaces everything after the last `/` of the base
path, i.e. the last path segment. -/
def Url.join1 (u : Url) (rel : String) : Url :=
  { u with pathSegments := u.pathSegments.dropLast ++ [rel] }

/-- `LocalcertClient` from `src/wire/client.rs`: the HTTP transport is
opaque and irrelevant to the claims, so the model keeps only the stored
base URL. -/
structure LocalcertClient where
  base_url : Url
deriving DecidableEq, Repr

/-- `LocalcertClient::new` from `src/wire/client.rs`.  The `TryInto<Url>`
conversion of the caller's input is an external parse whose outcome is the
argument (`.error msg` when the input cannot be parsed as a URL, carrying
the parse error's display string).  On success the path is canonicalized:
`url.path_segments_mut()` (failing with an invalid-base-URL error on a
cannot-be-a-base URL) then `.pop_if_empty().push("")`. -/
def LocalcertClient.new (parsed : Except String Url) :
    Except LocalcertError LocalcertClient :=
  match parsed with
  | .error msg => .error (.invalidBaseUrl msg)
  | .ok url =>
    if url.cannotBeABase then
      .error (.invalidBaseUrl "cannot be a base URL")
    else
      .ok { base_url :=
              { url with pathSegments := pushSegment (popIfEmpty url.pathSegments) "" } }

/-- The URL a request for endpoint `path` is posted to
(`LocalcertClient::localcert_request`: `self.base_url.join(path)`). -/
def LocalcertClient.requestUrl (c : LocalcertClient) (path : String) : Url :=
  c.base_url.join1 path

/-- `is_bad_nonce_error` from `src/wire/client.rs`: the result failed with
an ACME problem of the distinguished bad-nonce type. -/
def is_bad_nonce_error {α : Type} (res : Except LocalcertError α) : Bool :=
  match res with
  | .error (.acmeError (.acmeProblem problem)) =>
      problem.has_type AcmeProblemType.badNonce
  | _ => false

/-- `LocalcertClient::get_domain` from `src/wire/client.rs`.  Each call of
`get_domain_once` builds a fresh signed envelope and performs one HTTP
exchange; `firstAttempt` and `secondAttempt` are the outcomes those two
invocations would produce.  The first attempt is made; if (and only if) it
failed with a bad-nonce problem, one retry is made and its outcome
returned. -/
def LocalcertClient.get_domain
    (firstAttempt secondAttempt : Except LocalcertError DomainResult) :
    Except LocalcertError DomainResult :=
  if is_bad_nonce_error firstAttempt then secondAttempt else firstAttempt

/-- Number of `get_domain_once` invocations `LocalcertClient::get_domain`
performs, given the first attempt's outcome. -/
def LocalcertClient.get_domain_attempts
    (firstAttempt : Except LocalcertError DomainResult) : Nat :=
  if is_bad_nonce_error firstAttempt then 2 else 1

/-- `LocalcertClient::provision_domain` from `src/wire/client.rs`: same
retry shape as `get_domain`, over `provision_domain_once`. -/
def LocalcertClient.provision_domain
    (firstAttempt secondAttempt : Except LocalcertError ProvisionResult) :
    Except LocalcertError ProvisionResult :=
  if is_bad_nonce_error firstAttempt then secondAttempt else firstAttempt

/-- Number of `provision_domain_once` invocations
`LocalcertClient::provision_domain` performs. -/
def LocalcertClient.provision_domain_attempts
    (firstAttempt : Except LocalcertError ProvisionResult) : Nat :=
  if is_bad_nonce_error firstAttempt then 2 else 1

/-!
The issuance state machine, `src/states.rs`.  Each phase wraps the shared
session `State`.  Network effects are explicit inputs: the outcome each
external call would produce, and for `Order::status_changed` the sequence
of statuses the authority reports on successive re-queries (an empty or
never-changing sequence models an authority that never transitions, on
which the wait suspends indefinitely).
-/

/-- `RegisteredState` from `src/states.rs`.  The polling interval only
feeds the recheck timer inside `status_changed`; it is carried in
milliseconds. -/
structure RegisteredState where
  client : LocalcertClient
  account : Account
  acme_polling_interval : Nat
deriving DecidableEq, Repr

/-- The shared session state (`struct State` in `src/states.rs`). -/
structure State where
  client : LocalcertClient
  account : Account
  order : Order
  acme_polling_interval : Nat
deriving DecidableEq, Repr

/-- `OrderedState` from `src/states.rs`. -/
structure OrderedState where
  s : State
deriving DecidableEq, Repr

/-- `AuthorizedState` from `src/states.rs`. -/
structure AuthorizedState where
  s : State
deriving DecidableEq, Repr

/-- `FinalizedState` from `src/states.rs`. -/
structure FinalizedState where
  s : State
deriving DecidableEq, Repr

/-- `ResumeOrderState` from `src/states.rs`. -/
inductive ResumeOrderState where
  | ordered (st : OrderedState)
  | authorized (st : AuthorizedState)
  | finalized (st : FinalizedState)
deriving DecidableEq, Repr

/-- The first status in the reported sequence that differs from `stale`
(what `Order::status_changed` eventually observes), if any. -/
def firstDifferent (stale : OrderStatus) : List OrderStatus → Option OrderStatus
  | [] => none
  | s :: rest => if s = stale then firstDifferent stale rest else some s

/-- `State::order_status_changed_from` from `src/states.rs`: if the order's
current status still equals the stale value, suspend until the authority
reports a different one (`polls` is the sequence of statuses successive
re-queries report; if none differs the wait never completes — `none`).
Returns the updated state and the resulting status
(`self.order.status_result()`). -/
def State.order_status_changed_from (st : State) (polls : List OrderStatus)
    (status : OrderStatus) : Option (State × OrderStatus) :=
  if st.order.status = status then
    match firstDifferent status polls with
    | none => none
    | some s => some ({ st with order := { st.order with status := s } }, s)
  else
    some (st, st.order.status)

/-- `RegisteredState::with_order` from `src/states.rs`. -/
def RegisteredState.with_order (r : RegisteredState) (acme_order : Order) :
    OrderedState :=
  { s := { client := r.client, account := r.account, order := acme_order,
           acme_polling_interval := r.acme_polling_interval } }

/-- `RegisteredState::new_order` from `src/states.rs`.
`get_domain` is the provisioning wire client's outcome as a function of the
account it is passed; `new_dns_order` is the authority's outcome as a
function of the domain ordered.  Besides the result, the model returns the
effect trace: which accounts were sent to the domain-claim endpoint and
which domain strings were ordered at the authority, in call order. -/
def RegisteredState.new_order (r : RegisteredState)
    (get_domain : Account → Except LocalcertError DomainResult)
    (new_dns_order : String → Except LocalcertError Order) :
    Res OrderedState × List Account × List String :=
  match get_domain r.account with
  | .error e => (.err e, [r.account], [])
  | .ok domain_result =>
    match new_dns_order domain_result.localcert_domain with
    | .error e => (.err e, [r.account], [domain_result.localcert_domain])
    | .ok order =>
      (.ok (r.with_order order), [r.account], [domain_result.localcert_domain])

/-- `RegisteredState::resume_order` from `src/states.rs`.  `fetched` is the
outcome of `self.account.get_order(order_url)`.  The fetched order is
classified by status; any status outside {Pending, Ready, Processing,
Valid} hits `unreachable!()` — a crash. -/
def RegisteredState.resume_order (r : RegisteredState)
    (fetched : Except LocalcertError Order) : Res ResumeOrderState :=
  match fetched with
  | .error e => .err e
  | .ok order =>
    let state : State :=
      { client := r.client, account := r.account, order := order,
        acme_polling_interval := r.acme_polling_interval }
    match state.order.status with
    | .pending => .ok (.ordered { s := state })
    | .ready => .ok (.authorized { s := state })
    | .processing => .ok (.finalized { s := state })
    | .valid => .ok (.finalized { s := state })
    | _ => .panic

/-- Trace of the provisioning side effects an authorize run performs:
`provisionCalls` records the authorization URL of each
`client.provision_domain` call, `respondCalls` the URL of each challenge
whose `respond()` was triggered, in call order. -/
structure AuthorizeEffects where
  provisionCalls : List String
  respondCalls : List String
deriving DecidableEq, Repr

/-- The free function `authorize` from `src/states.rs` (lines 180-211).
`provision` maps the authorization URL passed to
`client.provision_domain(account, url)` to that call's outcome; `respond`
is the outcome `pending.respond()` would produce.  Besides the outcome the
model returns the effect trace.  An authorization status outside
{Pending, Valid} hits `unreachable!()` — a crash. -/
def authorize (provision : String → Except LocalcertError ProvisionResult)
    (respond : Except LocalcertError Unit)
    (authorization : Authorization) : Res Unit × AuthorizeEffects :=
  match authorization.status with
  | .pending =>
    match authorization.find_challenge_type CHALLENGE_TYPE_DNS_01 with
    | none => (.err (.acmeFeatureMissing "no dns-01 challenge"), ⟨[], []⟩)
    | some challenge =>
      match provision authorization.url with
      | .error e => (.err e, ⟨[authorization.url], []⟩)
      | .ok provision_result =>
        if provision_result.provisioned_challenge_url ≠ challenge.url then
          (.err (.stateError "provisioned challenge doesn't match DNS-01 challenge"),
           ⟨[authorization.url], []⟩)
        else
          match challenge.status with
          | .pending =>
            match respond with
            | .error e => (.err e, ⟨[authorization.url], [challenge.url]⟩)
            | .ok _ => (.ok (), ⟨[authorization.url], [challenge.url]⟩)
          | _ => (.ok (), ⟨[authorization.url], []⟩)
  | .valid => (.ok (), ⟨[], []⟩)
  | _ => (.panic, ⟨[], []⟩)

/-- `OrderedState::authorize` from `src/states.rs`.  When the order is in
its Pending sub-state, the single authorization is fetched
(`get_only_authorization`), the free `authorize` runs, and then the state
waits for the order's status to leave Pending (`polls` as in
`order_status_changed_from`).  Any other sub-state skips straight to
yielding the Authorized phase. -/
def OrderedState.authorize (o : OrderedState)
    (get_only_authorization : Except LocalcertError Authorization)
    (provision : String → Except LocalcertError ProvisionResult)
    (respond : Except LocalcertError Unit)
    (polls : List OrderStatus) : Res AuthorizedState × AuthorizeEffects :=
  match o.s.order.status with
  | .pending =>
    match get_only_authorization with
    | .error e => (.err e, ⟨[], []⟩)
    | .ok authorization =>
      match Localcert.authorize provision respond authorization with
      | (.ok _, eff) =>
        match o.s.order_status_changed_from polls .pending with
        | none => (.suspended, eff)
        | some (s2, _) => (.ok { s := s2 }, eff)
      | (.err e, eff) => (.err e, eff)
      | (.panic, eff) => (.panic, eff)
      | (.suspended, eff) => (.suspended, eff)
  | _ => (.ok { s := o.s }, ⟨[], []⟩)

/-- `AuthorizedState::finalize_with_generated_key` from `src/states.rs`.
`finalizeKeyCall` is the outcome `ready.finalize_with_generated_key()`
would produce.  Only the Ready sub-state finalizes; every other sub-state
fails with the unexpected-status error carrying the order's actual
status. -/
def AuthorizedState.finalize_with_generated_key (a : AuthorizedState)
    (finalizeKeyCall : Except LocalcertError GeneratedKey) :
    Res (GeneratedKey × FinalizedState) :=
  match a.s.order.status with
  | .ready =>
    match finalizeKeyCall with
    | .error e => .err e
    | .ok generated_key => .ok (generated_key, { s := a.s })
  | _ => .err (.unexpected_status "order" a.s.order.status.debugStr)

/-- `AuthorizedState::finalize_with_csr` from `src/states.rs`.
`finalizeCall` is the outcome `ready.finalize(csr_der)` would produce.
The Ready sub-state submits the CSR; the Pending sub-state fails with the
unexpected-status error; every other sub-state falls through the `_ => ()`
arm and yields Finalized without submitting anything.  The returned Bool
records whether the CSR was submitted to the authority. -/
def AuthorizedState.finalize_with_csr (a : AuthorizedState)
    (finalizeCall : Except LocalcertError Unit) :
    Res FinalizedState × Bool :=
  match a.s.order.status with
  | .ready =>
    match finalizeCall with
    | .error e => (.err e, true)
    | .ok _ => (.ok { s := a.s }, true)
  | .pending =>
    (.err (.unexpected_status "order" a.s.order.status.debugStr), false)
  | _ => (.ok { s := a.s }, false)

/-- `FinalizedState::get_certificate` from `src/states.rs`.  Takes the
phase by `&mut self` in the source, so the model returns the (possibly
updated) phase alongside the outcome.  Waits for the order's status to
leave Processing, then requires the Valid sub-state;
`get_certificate_chain` is the outcome `valid.get_certificate_chain()`
would produce. -/
def FinalizedState.get_certificate (f : FinalizedState)
    (polls : List OrderStatus)
    (get_certificate_chain : Except LocalcertError String) :
    Res String × FinalizedState :=
  match f.s.order_status_changed_from polls .processing with
  | none => (.suspended, f)
  | some (s2, status) =>
    match s2.order.status with
    | .valid =>
      match get_certificate_chain with
      | .error e => (.err e, { s := s2 })
      | .ok chain => (.ok chain, { s := s2 })
    | _ => (.err (.unexpected_status "order" status.debugStr), { s := s2 })

/-!
Receiver modes.  Rust's move semantics make every phase value affine: an
operation whose receiver is `self` (by value) consumes the phase, so the
phase cannot be used for a second forward transition; an operation whose
receiver is `&mut self` only borrows it, and the phase remains usable
afterwards.  The table below transcribes the receiver of each public phase
operation from its signature in `src/states.rs`.
-/

/-- How a Rust method takes its receiver. -/
inductive Receiver where
  | byValue
  | byRef
  | byRefMut
deriving DecidableEq, Repr

/-- The public operations on phase values in `src/states.rs`. -/
inductive PhaseOp where
  | new_order
  | with_order
  | resume_order
  | authorize
  | finalize_with_generated_key
  | finalize_with_csr
  | get_certificate
deriving DecidableEq, Repr

/-- The receiver mode of each phase operation, transcribed from the Rust
signatures in `src/states.rs`:
`new_order(self)`, `with_order(self, ...)`, `resume_order(self, ...)`,
`authorize(mut self)`, `finalize_with_generated_key(mut self)`,
`finalize_with_csr(mut self, ...)`, `get_certificate(&mut self)`. -/
def PhaseOp.receiver : PhaseOp → Receiver
  | .new_order => .byValue
  | .with_order => .byValue
  | .resume_order => .byValue
  | .authorize => .byValue
  | .finalize_with_generated_key => .byValue
  | .finalize_with_csr => .byValue
  | .get_certificate => .byRefMut

/-- The six forward transitions named by the phase diagram (everything but
the terminal `get_certificate`). -/
def forwardTransitions : List PhaseOp :=
  [.new_order, .with_order, .resume_order, .authorize,
   .finalize_with_generated_key, .finalize_with_csr]

/-- A concrete wire client, for instantiating universally quantified
theorems at concrete inputs. -/
def sampleClient : LocalcertClient :=
  { base_url := { scheme := "https", host := "localcert.dev",
                  cannotBeABase := false, pathSegments := [""] } }

/-- A concrete account. -/
def sampleAccount : Account := { url := "https://ca/acct/1" }

/-- A concrete session state over an order with the given status. -/
def sampleState (st : OrderStatus) : State :=
  { client := sampleClient, account := sampleAccount,
    order := { url := "https://ca/order/1", status := st },
    acme_polling_interval := 5000 }

/-- A concrete registered phase. -/
def sampleRegistered : RegisteredState :=
  { client := sampleClient, account := sampleAccount,
    acme_polling_interval := 5000 }

/-- A concrete bad-nonce problem failure, as the authority reports it. -/
def badNonceFailure : LocalcertError :=
  .acmeError (.acmeProblem { problemType := some .badNonce,
                             detail := "JWS has an invalid anti-replay nonce" })

/-- A concrete parsed base URL whose path `/api` has no trailing
separator. -/
def apiBaseUrl : Url :=
  { scheme := "https", host := "localcert.dev",
    cannotBeABase := false, pathSegments := ["api"] }

/-- The canonicalized client `LocalcertClient::new` builds from
`apiBaseUrl`: the stored path is `/api/`. -/
def apiClient : LocalcertClient :=
  { base_url := { scheme := "https", host := "localcert.dev",
                  cannotBeABase := false, pathSegments := ["api", ""] } }

/-! Helper lemmas. -/

theorem renderSegments_cons (s : String) (l : List String) (h : l ≠ []) :
    renderSegments (s :: l) = s ++ "/" ++ renderSegments l := by
  cases l with
  | nil => exact absurd rfl h
  | cons b bs => rfl

theorem renderSegments_snoc (l : List String) (x : String) :
    renderSegments (l ++ [x]) = renderSegments (l ++ [""]) ++ x := by
  induction l with
  | nil => simp [renderSegments]
  | cons a as ih =>
    rw [List.cons_append, List.cons_append,
      renderSegments_cons a (as ++ [x]) (by simp),
      renderSegments_cons a (as ++ [""]) (by simp), ih]
    simp [String.append_assoc]

theorem renderSegments_snoc_sep (l : List String) (h : l ≠ []) :
    renderSegments (l ++ [""]) = renderSegments l ++ "/" := by
  induction l with
  | nil => exact absurd rfl h
  | cons a as ih =>
    cases as with
    | nil => simp [renderSegments, String.append_empty]
    | cons b bs =>
      rw [List.cons_append, renderSegments_cons a ((b :: bs) ++ [""]) (by simp),
        renderSegments_cons a (b :: bs) (by simp), ih (by simp)]
      simp [String.append_assoc]

theorem dropLast_append_getLast_of_some {α : Type} (l : List α) (x : α)
    (h : l.getLast? = some x) : l.dropLast ++ [x] = l := by
  induction l with
  | nil => cases h
  | cons a as ih =>
    cases as with
    | nil =>
      simp only [List.getLast?_singleton, Option.some.injEq] at h
      subst h
      rfl
    | cons b bs =>
      rw [List.getLast?_cons_cons] at h
      simp only [List.dropLast_cons₂, List.cons_append, ih h]

theorem popIfEmpty_of_getLast_ne (l : List String) (s : String)
    (h : l.getLast? = some s) (hne : s ≠ "") : popIfEmpty l = l := by
  unfold popIfEmpty
  rw [h]
  split
  · simp_all
  · rfl

theorem firstDifferent_ne (stale : OrderStatus) (polls : List OrderStatus)
    (s : OrderStatus) (h : firstDifferent stale polls = some s) : s ≠ stale := by
  induction polls with
  | nil => simp [firstDifferent] at h
  | cons p rest ih =>
    by_cases hp : p = stale
    · exact ih (by simpa [firstDifferent, hp] using h)
    · simp only [firstDifferent, if_neg hp, Option.some.injEq] at h
      exact h ▸ hp

theorem order_status_changed_from_spec (st : State) (polls : List OrderStatus)
    (stale : OrderStatus) (s2 : State) (status : OrderStatus)
    (h : st.order_status_changed_from polls stale = some (s2, status)) :
    s2.order.status = status ∧ status ≠ stale := by
  unfold State.order_status_changed_from at h
  by_cases hcur : st.order.status = stale
  · rw [if_pos hcur] at h
    cases hfd : firstDifferent stale polls with
    | none => rw [hfd] at h; cases h
    | some s =>
      rw [hfd] at h
      simp only [Option.some.injEq, Prod.mk.injEq] at h
      obtain ⟨h1, h2⟩ := h
      subst h2
      subst h1
      exact ⟨rfl, firstDifferent_ne stale polls s hfd⟩
  · rw [if_neg hcur] at h
    simp only [Option.some.injEq, Prod.mk.injEq] at h
    obtain ⟨h1, h2⟩ := h
    subst h1
    subst h2
    exact ⟨rfl, hcur⟩

/-! Verified properties. -/

/-- C1 (counterexample): on an Authorized phase whose order is in the
Processing sub-state (not Ready), `finalize_with_csr` does NOT fail: it
yields a Finalized phase (and submits nothing), so the claim that both
finalize operations fail on every non-Ready sub-state is false. -/
theorem finalize_with_csr_processing_succeeds :
    (sampleState .processing).order.status ≠ OrderStatus.ready ∧
    AuthorizedState.finalize_with_csr { s := sampleState .processing } (.ok ()) =
      (Res.ok { s := sampleState .processing }, false) := by
  constructor
  · decide
  · rfl

/-- C1 (amended): on an Authorized phase whose order is not Ready,
`finalize_with_generated_key` fails with the unexpected-status error
carrying the order's actual status for every non-Ready sub-state, while
`finalize_with_csr` fails with that error only when the order is Pending;
for any other non-Ready sub-state it yields a Finalized phase without
submitting a CSR. -/
theorem finalize_unexpected_status (a : AuthorizedState)
    (gkCall : Except LocalcertError GeneratedKey)
    (csrCall : Except LocalcertError Unit)
    (h : a.s.order.status ≠ .ready) :
    a.finalize_with_generated_key gkCall =
      .err (.unexpected_status "order" a.s.order.status.debugStr) ∧
    (a.s.order.status = .pending →
      a.finalize_with_csr csrCall =
        (.err (.unexpected_status "order" a.s.order.status.debugStr), false)) ∧
    (a.s.order.status ≠ .pending →
      a.finalize_with_csr csrCall = (.ok { s := a.s }, false)) := by
  obtain ⟨⟨cl, acc, ord, iv⟩⟩ := a
  obtain ⟨u, st⟩ := ord
  cases st <;>
    simp_all [AuthorizedState.finalize_with_generated_key,
      AuthorizedState.finalize_with_csr]

/-- C1 (witness): the amended statement at a concrete Authorized phase
whose order is Processing. -/
theorem finalize_unexpected_status_witness :
    AuthorizedState.finalize_with_generated_key { s := sampleState .processing }
      (.ok { keyData := "key" }) =
      .err (.unexpected_status "order" OrderStatus.processing.debugStr) ∧
    AuthorizedState.finalize_with_csr { s := sampleState .processing } (.ok ()) =
      (.ok { s := sampleState .processing }, false) := by
  have h := finalize_unexpected_status { s := sampleState .processing }
    (.ok { keyData := "key" }) (.ok ()) (by decide)
  exact ⟨h.1, h.2.2 (by decide)⟩

/-- C2: `resume_order` crashes (hits `unreachable!()`) whenever the fetched
order's status is Invalid, instead of returning a defined result — the
code violates the claim's no-crash requirement (the spec flags this as a
required error path). -/
theorem resume_order_panics_on_invalid (r : RegisteredState) (order : Order)
    (h : order.status = .invalid) :
    r.resume_order (.ok order) = Res.panic := by
  obtain ⟨u, st⟩ := order
  simp only at h
  subst h
  rfl

/-- C2 (witness): the crash at a concrete session and fetched order. -/
theorem resume_order_panics_on_invalid_witness :
    sampleRegistered.resume_order
      (.ok { url := "https://ca/order/3", status := .invalid }) = Res.panic :=
  resume_order_panics_on_invalid sampleRegistered
    { url := "https://ca/order/3", status := .invalid } rfl

/-- C3: during authorize on a Pending authorization, whenever the
provisioning endpoint's returned challenge URL differs (exact string
comparison) from the authority's DNS-01 challenge URL, authorize aborts
with the state error and never signals the authority to validate the
challenge (no respond call); this holds for every pair of distinct URL
strings. -/
theorem authorize_rejects_mismatched_challenge_url
    (provision : String → Except LocalcertError ProvisionResult)
    (respond : Except LocalcertError Unit)
    (authorization : Authorization) (challenge : Challenge)
    (pr : ProvisionResult)
    (hst : authorization.status = .pending)
    (hch : authorization.find_challenge_type CHALLENGE_TYPE_DNS_01 = some challenge)
    (hpr : provision authorization.url = .ok pr)
    (hne : pr.provisioned_challenge_url ≠ challenge.url) :
    authorize provision respond authorization =
      (.err (.stateError "provisioned challenge doesn't match DNS-01 challenge"),
       { provisionCalls := [authorization.url], respondCalls := [] }) := by
  simp only [authorize, hst, hch, hpr, if_pos hne]

/-- C3 (witness): a concrete Pending authorization whose DNS-01 challenge
URL differs from the well-formed URL the provisioning endpoint returns. -/
theorem authorize_rejects_mismatched_challenge_url_witness :
    authorize
      (fun u => .ok { authorization_url := u,
                      provisioned_challenge_url := "https://ca/chall/other" })
      (.ok ())
      { url := "https://ca/authz/1", status := .pending,
        challenges := [{ challengeType := "dns-01", url := "https://ca/chall/1",
                         status := .pending }] } =
      (.err (.stateError "provisioned challenge doesn't match DNS-01 challenge"),
       { provisionCalls := ["https://ca/authz/1"], respondCalls := [] }) := by
  exact authorize_rejects_mismatched_challenge_url
    (fun u => .ok { authorization_url := u,
                    provisioned_challenge_url := "https://ca/chall/other" })
    (.ok ())
    { url := "https://ca/authz/1", status := .pending,
      challenges := [{ challengeType := "dns-01", url := "https://ca/chall/1",
                       status := .pending }] }
    { challengeType := "dns-01", url := "https://ca/chall/1", status := .pending }
    { authorization_url := "https://ca/authz/1",
      provisioned_challenge_url := "https://ca/chall/other" }
    rfl (by decide) rfl (by decide)

/-- C4: `new_order` queries the domain-claim endpoint with the session's
account, then opens an authority order for exactly the returned domain
string, and yields an Ordered phase wrapping that order. -/
theorem new_order_orders_assigned_domain (r : RegisteredState)
    (get_domain : Account → Except LocalcertError DomainResult)
    (new_dns_order : String → Except LocalcertError Order)
    (dr : DomainResult) (order : Order)
    (hd : get_domain r.account = .ok dr)
    (ho : new_dns_order dr.localcert_domain = .ok order) :
    r.new_order get_domain new_dns_order =
      (.ok (r.with_order order), [r.account], [dr.localcert_domain]) ∧
    (r.with_order order).s.order = order := by
  constructor
  · simp only [RegisteredState.new_order, hd, ho]
  · rfl

/-- C4 (witness): a concrete session whose domain claim returns a domain,
ordered at the authority. -/
theorem new_order_orders_assigned_domain_witness :
    sampleRegistered.new_order
      (fun _ => .ok { localcert_domain := "me.localcert.dev" })
      (fun _ => .ok { url := "https://ca/order/new", status := .pending }) =
      (.ok (sampleRegistered.with_order
        { url := "https://ca/order/new", status := .pending }),
       [sampleAccount], ["me.localcert.dev"]) := by
  have h := new_order_orders_assigned_domain sampleRegistered
    (fun _ => .ok { localcert_domain := "me.localcert.dev" })
    (fun d => .ok { url := "https://ca/order/new", status := .pending })
    { localcert_domain := "me.localcert.dev" }
    { url := "https://ca/order/new", status := .pending } rfl rfl
  exact h.1

/-- C5: `get_certificate` first waits until the order's status differs from
Processing; once the wait completes the resulting status is not
Processing, the certificate chain string is returned exactly when the
order then reports Valid, and every other resulting status yields the
unexpected-status error carrying that status. -/
theorem get_certificate_requires_valid (f : FinalizedState)
    (polls : List OrderStatus) (chainFetch : Except LocalcertError String)
    (s2 : State) (status : OrderStatus)
    (h : f.s.order_status_changed_from polls .processing = some (s2, status)) :
    status ≠ .processing ∧
    (∀ chain, chainFetch = .ok chain → status = .valid →
      f.get_certificate polls chainFetch = (.ok chain, { s := s2 })) ∧
    (status ≠ .valid →
      f.get_certificate polls chainFetch =
        (.err (.unexpected_status "order" status.debugStr), { s := s2 })) := by
  obtain ⟨hs, hne⟩ := order_status_changed_from_spec f.s polls .processing s2 status h
  refine ⟨hne, ?_, ?_⟩
  · intro chain hc hv
    simp only [FinalizedState.get_certificate, h, hs, hv, hc]
  · intro hv
    simp only [FinalizedState.get_certificate, h, hs]

/-- C5 (witness): a concrete Finalized phase whose order leaves Processing
for Valid after one poll, returning the chain. -/
theorem get_certificate_requires_valid_witness :
    FinalizedState.get_certificate { s := sampleState .processing }
      [.processing, .valid] (.ok "PEM CHAIN") =
      (.ok "PEM CHAIN", { s := sampleState .valid }) := by
  have h := get_certificate_requires_valid { s := sampleState .processing }
    [.processing, .valid] (.ok "PEM CHAIN") (sampleState .valid) .valid (by decide)
  exact h.2.1 "PEM CHAIN" rfl rfl

/-- C6: for both wire-client operations, a first attempt failing with a
bad-nonce problem causes exactly one retry whose outcome (success or any
failure, bad-nonce included) is returned unchanged; a first attempt that
is not a bad-nonce failure is returned unchanged with no retry. -/
theorem nonce_retry_policy
    (firstD secondD : Except LocalcertError DomainResult)
    (firstP secondP : Except LocalcertError ProvisionResult) :
    (is_bad_nonce_error firstD = true →
      LocalcertClient.get_domain firstD secondD = secondD ∧
      LocalcertClient.get_domain_attempts firstD = 2) ∧
    (is_bad_nonce_error firstD = false →
      LocalcertClient.get_domain firstD secondD = firstD ∧
      LocalcertClient.get_domain_attempts firstD = 1) ∧
    (is_bad_nonce_error firstP = true →
      LocalcertClient.provision_domain firstP secondP = secondP ∧
      LocalcertClient.provision_domain_attempts firstP = 2) ∧
    (is_bad_nonce_error firstP = false →
      LocalcertClient.provision_domain firstP secondP = firstP ∧
      LocalcertClient.provision_domain_attempts firstP = 1) := by
  refine ⟨fun h => ?_, fun h => ?_, fun h => ?_, fun h => ?_⟩ <;>
    simp [LocalcertClient.get_domain, LocalcertClient.get_domain_attempts,
      LocalcertClient.provision_domain,
      LocalcertClient.provision_domain_attempts, h]

/-- C6 (witness): bad-nonce then success returns the success; two
consecutive bad-nonce failures surface the second unchanged; a
non-bad-nonce failure is surfaced with no retry. -/
theorem nonce_retry_policy_witness :
    LocalcertClient.get_domain (.error badNonceFailure)
      (.ok { localcert_domain := "me.localcert.dev" }) =
      .ok { localcert_domain := "me.localcert.dev" } ∧
    LocalcertClient.provision_domain (.error badNonceFailure)
      (.error badNonceFailure) = .error badNonceFailure ∧
    LocalcertClient.get_domain (.error (.stateError "boom"))
      (.ok { localcert_domain := "x" }) = .error (.stateError "boom") := by
  have h1 := nonce_retry_policy (.error badNonceFailure)
    (.ok { localcert_domain := "me.localcert.dev" })
    (.error badNonceFailure) (.error badNonceFailure)
  have h2 := nonce_retry_policy (.error (.stateError "boom"))
    (.ok { localcert_domain := "x" })
    (.error badNonceFailure) (.error badNonceFailure)
  exact ⟨(h1.1 (by decide)).1, (h1.2.2.1 (by decide)).1, (h2.2.1 (by decide)).1⟩

/-- C7: on an authorization already Valid, authorize makes no provisioning
call and no challenge response and succeeds, in any environment — so a
repeat in sequence (the authorization is untouched) also succeeds with no
provisioning call; and `OrderedState::authorize` over such an
authorization yields the Authorized phase (once the order's status wait
completes when the order was Pending, and immediately otherwise). -/
theorem authorize_valid_noop
    (provision provision2 : String → Except LocalcertError ProvisionResult)
    (respond respond2 : Except LocalcertError Unit)
    (authorization : Authorization)
    (h : authorization.status = .valid) :
    authorize provision respond authorization =
      (.ok (), { provisionCalls := [], respondCalls := [] }) ∧
    authorize provision2 respond2 authorization =
      (.ok (), { provisionCalls := [], respondCalls := [] }) ∧
    (∀ (o : OrderedState) (polls : List OrderStatus) (s2 : State)
        (st : OrderStatus),
      o.s.order.status = .pending →
      o.s.order_status_changed_from polls .pending = some (s2, st) →
      o.authorize (.ok authorization) provision respond polls =
        (.ok { s := s2 }, { provisionCalls := [], respondCalls := [] })) ∧
    (∀ (o : OrderedState) (polls : List OrderStatus),
      o.s.order.status ≠ .pending →
      o.authorize (.ok authorization) provision respond polls =
        (.ok { s := o.s }, { provisionCalls := [], respondCalls := [] })) := by
  have hfree : ∀ (p : String → Except LocalcertError ProvisionResult)
      (rp : Except LocalcertError Unit),
      authorize p rp authorization =
        (.ok (), { provisionCalls := [], respondCalls := [] }) := by
    intro p rp
    simp only [authorize, h]
  refine ⟨hfree _ _, hfree _ _, ?_, ?_⟩
  · intro o polls s2 st ho hw
    simp only [OrderedState.authorize, ho, hfree, hw]
  · intro o polls ho
    cases hos : o.s.order.status <;> simp_all [OrderedState.authorize]

/-- C7 (witness): a concrete already-Valid authorization, once at the free
level and once through an Ordered phase whose order is Ready. -/
theorem authorize_valid_noop_witness :
    authorize (fun _ => .error (.stateError "unused")) (.ok ())
      { url := "https://ca/authz/1", status := .valid, challenges := [] } =
      (.ok (), { provisionCalls := [], respondCalls := [] }) ∧
    OrderedState.authorize { s := sampleState .ready }
      (.ok { url := "https://ca/authz/1", status := .valid, challenges := [] })
      (fun _ => .error (.stateError "unused")) (.ok ()) [] =
      (.ok { s := sampleState .ready },
       { provisionCalls := [], respondCalls := [] }) := by
  have h := authorize_valid_noop
    (fun _ => .error (.stateError "unused"))
    (fun _ => .error (.stateError "unused")) (.ok ()) (.ok ())
    { url := "https://ca/authz/1", status := .valid, challenges := [] } rfl
  exact ⟨h.1, h.2.2.2 { s := sampleState .ready } [] (by decide)⟩

/-- C8 (counterexample): `get_certificate` takes the Finalized phase by
`&mut self`, not by value, so the session is not destroyed when it
succeeds: here a phase on which `get_certificate` already succeeded
remains usable and a second `get_certificate` on it succeeds again —
refuting the claim that the session is no longer usable once
`get_certificate` succeeds. -/
theorem get_certificate_does_not_consume :
    PhaseOp.receiver .get_certificate ≠ Receiver.byValue ∧
    (FinalizedState.get_certificate { s := sampleState .valid } []
      (.ok "PEM")).1 = Res.ok "PEM" ∧
    (FinalizedState.get_certificate
      (FinalizedState.get_certificate { s := sampleState .valid } []
        (.ok "PEM")).2
      [] (.ok "PEM")).1 = Res.ok "PEM" := by
  exact ⟨by decide, rfl, rfl⟩

/-- C8 (amended): each of the six forward transitions (`new_order`,
`with_order`, `resume_order`, `authorize`, `finalize_with_generated_key`,
`finalize_with_csr`) takes its phase receiver by value, consuming it, so
no phase can be used for more than one forward transition; but
`get_certificate` takes the Finalized phase by mutable reference, and the
session remains usable after it succeeds. -/
theorem phase_receiver_modes :
    (∀ op ∈ forwardTransitions, PhaseOp.receiver op = .byValue) ∧
    PhaseOp.receiver .get_certificate = .byRefMut := by decide

/-- C8 (witness): the amended statement at the `new_order` transition. -/
theorem phase_receiver_modes_witness :
    PhaseOp.receiver .new_order = .byValue ∧
    PhaseOp.receiver .get_certificate = .byRefMut :=
  ⟨phase_receiver_modes.1 .new_order (by decide), phase_receiver_modes.2⟩

/-- C9: `LocalcertClient::new` canonicalizes the accepted base URL so its
path ends in a path separator, adding one exactly when the input path
lacks it (never duplicating one); joining an endpoint name ("domain" or
"provision") yields a URL whose path is the stored base path immediately
followed by the endpoint name, the base's single trailing separator
between them; and construction fails with an invalid-base-URL error on
every input that cannot be parsed as a URL or cannot be a base. -/
theorem base_url_canonicalization (parsed : Except String Url) :
    (∀ msg, parsed = .error msg →
      LocalcertClient.new parsed = .error (.invalidBaseUrl msg)) ∧
    (∀ url, parsed = .ok url → url.cannotBeABase = true →
      LocalcertClient.new parsed =
        .error (.invalidBaseUrl "cannot be a base URL")) ∧
    (∀ c, LocalcertClient.new parsed = .ok c →
      (∃ p, c.base_url.path = p ++ "/") ∧
      (∀ ep, ep ∈ (["domain", "provision"] : List String) →
        (c.requestUrl ep).path = c.base_url.path ++ ep) ∧
      (∀ url, parsed = .ok url →
        (url.pathSegments.getLast? = some "" → c.base_url.path = url.path) ∧
        (url.pathSegments = [] → c.base_url.path = url.path) ∧
        (∀ s, url.pathSegments.getLast? = some s → s ≠ "" →
          c.base_url.path = url.path ++ "/"))) := by
  refine ⟨?_, ?_, ?_⟩
  · intro msg hmsg
    subst hmsg
    rfl
  · intro url hok hb
    subst hok
    simp [LocalcertClient.new, hb]
  · intro c hc
    cases parsed with
    | error msg => simp [LocalcertClient.new] at hc
    | ok url =>
      by_cases hb : url.cannotBeABase
      · simp [LocalcertClient.new, hb] at hc
      · simp only [LocalcertClient.new, hb, Bool.false_eq_true, if_false,
          Except.ok.injEq] at hc
        subst hc
        refine ⟨?_, ?_, ?_⟩
        · cases hpop : popIfEmpty url.pathSegments with
          | nil =>
            refine ⟨"", ?_⟩
            simp [Url.path, pushSegment, hpop, renderSegments,
              String.append_empty, String.empty_append]
          | cons a as =>
            refine ⟨"/" ++ renderSegments (a :: as), ?_⟩
            simp only [Url.path, pushSegment, hpop]
            rw [renderSegments_snoc_sep (a :: as) (by simp),
              String.append_assoc]
        · intro ep _
          simp only [LocalcertClient.requestUrl, Url.join1, Url.path,
            pushSegment]
          rw [List.dropLast_concat, renderSegments_snoc, String.append_assoc]
        · intro url2 hok2
          rw [Except.ok.injEq] at hok2
          subst hok2
          refine ⟨?_, ?_, ?_⟩
          · intro hlast
            have hpop : popIfEmpty url.pathSegments = url.pathSegments.dropLast := by
              unfold popIfEmpty
              rw [hlast]
              rfl
            simp only [Url.path, pushSegment, hpop,
              dropLast_append_getLast_of_some url.pathSegments "" hlast]
          · intro hnil
            simp [Url.path, pushSegment, popIfEmpty, hnil, renderSegments]
          · intro s hlast hne
            have hpop := popIfEmpty_of_getLast_ne url.pathSegments s hlast hne
            have hnn : url.pathSegments ≠ [] := by
              intro hn
              rw [hn] at hlast
              cases hlast
            simp only [Url.path, pushSegment, hpop,
              renderSegments_snoc_sep url.pathSegments hnn,
              String.append_assoc]

/-- C9 (witness): a parsable base URL with path `/api` is canonicalized to
`/api/`; joining the "domain" endpoint appends it after that single
separator; an unparsable input fails with the invalid-base-URL error. -/
theorem base_url_canonicalization_witness :
    LocalcertClient.new (.ok apiBaseUrl) = .ok apiClient ∧
    (∃ p, apiClient.base_url.path = p ++ "/") ∧
    (apiClient.requestUrl "domain").path =
      apiClient.base_url.path ++ "domain" ∧
    LocalcertClient.new (.error "relative URL without a base") =
      .error (.invalidBaseUrl "relative URL without a base") := by
  have hnew : LocalcertClient.new (.ok apiBaseUrl) = .ok apiClient := by rfl
  have h := base_url_canonicalization (.ok apiBaseUrl)
  have h3 := h.2.2 apiClient hnew
  have herr := base_url_canonicalization
    (Except.error "relative URL without a base")
  exact ⟨hnew, h3.1, h3.2.1 "domain" (by simp),
    herr.1 "relative URL without a base" rfl⟩

/-- C10: on an authorization whose status is neither Pending nor Valid
(authority responses such as Invalid or Revoked are possible), authorize
does not return a tagged error: it crashes through the `unreachable!()`
branch, so authorize is not panic-free over all authorization statuses. -/
theorem authorize_panics_on_unexpected_status
    (provision : String → Except LocalcertError ProvisionResult)
    (respond : Except LocalcertError Unit) (authorization : Authorization)
    (h1 : authorization.status ≠ .pending)
    (h2 : authorization.status ≠ .valid) :
    authorize provision respond authorization =
      (Res.panic, { provisionCalls := [], respondCalls := [] }) := by
  obtain ⟨u, st, ch⟩ := authorization
  simp only at h1 h2
  cases st <;> simp_all [authorize]

/-- C10 (witness): the crash at a concrete Invalid authorization. -/
theorem authorize_panics_on_unexpected_status_witness :
    authorize (fun _ => .error (.stateError "unused")) (.ok ())
      { url := "https://ca/authz/9", status := .invalid, challenges := [] } =
      (Res.panic, { provisionCalls := [], respondCalls := [] }) :=
  authorize_panics_on_unexpected_status
    (fun _ => .error (.stateError "unused")) (.ok ())
    { url := "https://ca/authz/9", status := .invalid, challenges := [] }
    (by decide) (by decide)

end Localcert
